import Mathlib

/-!
Verification of the polyester crawl engine (`crawler/crawler.go`).

This file shallowly embeds the crawler's data model and operations:
URLs (mirroring the fields of Go's `net/url.URL` that the crawler uses),
the `Crawler` configuration, the HTML-node rewriting pass (`staticateNode`
and `staticateDoc`), the page fetcher (`processURL`), the redirect resolver
(`followRedirects`), and the frontier/seen-set admission logic of `CrawlP`.

Go standard-library helpers used by the crawler (`strings.Split`,
`strings.Replace`, `strings.TrimPrefix`, `sort.Strings`,
`url.Values.Encode`, `url.URL.String`, `url.URL.Hostname`) are modelled
directly as executable Lean functions over `List Char` / `String`.
External effectful collaborators (the HTTP client, the HTML parser and
renderer of `golang.org/x/net/html`, `url.Parse`, and the resource store)
are passed in as explicit function parameters, so every repository
function stays a pure, executable definition.
-/

/-- Splits a string at every occurrence of a single-character separator,
modelling Go `strings.Split(s, sep)` for the one-character separators the
crawler uses (`"/"`, `";"`, `","`, `"&"`, `"="`, `":"`, `" "`).
Like Go, the result is never empty: splitting the empty string yields
`[""]`. -/
def splitOnCharAux (sep : Char) : List Char → List Char → List (List Char)
  | [], acc => [acc.reverse]
  | c :: cs, acc =>
    if c = sep then acc.reverse :: splitOnCharAux sep cs []
    else splitOnCharAux sep cs (c :: acc)

def splitOnChar (sep : Char) (s : String) : List String :=
  (splitOnCharAux sep s.data []).map String.mk

/-- Replaces every non-overlapping occurrence of `pat` in the character
list, left to right, modelling Go `strings.Replace(s, old, new, -1)` for
nonempty `pat`.  The `fuel` argument only makes the recursion structural:
every step consumes at least one character, so any `fuel` of at least the
list's length (as supplied by `replaceAll`) gives Go's behavior. -/
def replaceAllAux (pat rep : List Char) : Nat → List Char → List Char
  | 0, cs => cs
  | _ + 1, [] => []
  | fuel + 1, c :: cs =>
    if pat.isPrefixOf (c :: cs) then
      rep ++ replaceAllAux pat rep fuel ((c :: cs).drop pat.length)
    else
      c :: replaceAllAux pat rep fuel cs

/-- Go `strings.Replace(s, old, new, -1)`; the crawler never calls it with
an empty pattern, and for an empty pattern this model returns `s`. -/
def replaceAll (s pat rep : String) : String :=
  match pat.data with
  | [] => s
  | p :: ps => String.mk (replaceAllAux (p :: ps) rep.data s.data.length s.data)

/-- Go `strings.TrimPrefix(s, "www.")` as used by `isLocal`. -/
def trimWww (s : String) : String :=
  if ("www.".data).isPrefixOf s.data then String.mk (s.data.drop 4) else s

/-- The fields of Go's `net/url.URL` that the crawler reads or writes.
(`User`, `Opaque`, `RawPath`, `OmitHost` and `ForceQuery` are never used
by the crawler and are omitted; percent-escaping is not modelled, strings
are taken as already escaped.) -/
structure URL where
  scheme : String
  host : String
  path : String
  rawQuery : String
  fragment : String
deriving DecidableEq, Repr

/-- Go `url.URL.Hostname()`: the host with any `:port` suffix removed
(everything before the last `:`; the IPv6 bracket form is not modelled,
the crawler never constructs one). -/
def URL.hostname (u : URL) : String :=
  let parts := splitOnChar ':' u.host
  if parts.length = 1 then u.host
  else String.intercalate ":" parts.dropLast

/-- Go `url.URL.String()` restricted to the fields the crawler uses:
`scheme:` when the scheme is nonempty, `//host` when required, then path,
`?query` and `#fragment`. -/
def URL.str (u : URL) : String :=
  (if u.scheme = "" then "" else u.scheme ++ ":") ++
  (if (u.scheme ≠ "" ∨ u.host ≠ "") ∧ (u.host ≠ "" ∨ u.path ≠ "") then "//" else "") ++
  u.host ++ u.path ++
  (if u.rawQuery = "" then "" else "?" ++ u.rawQuery) ++
  (if u.fragment = "" then "" else "#" ++ u.fragment)

/-- `relativize` (crawler.go): turns a fully-qualified URL into a relative
URL by clearing scheme and host. -/
def relativize (u : URL) : URL :=
  { u with scheme := "", host := "" }

/-- `rootRelativeURL` (crawler.go): a root-relative URL string based on
the passed URL. -/
def rootRelativeURL (u : URL) : String :=
  (relativize u).str

/-- Go `url.ParseQuery` / `url.URL.Query()` without percent-decoding:
split the raw query on `&`, skip empty components, and cut each component
at its first `=`. -/
def parseQueryPairs (s : String) : List (String × String) :=
  (splitOnChar '&' s).filterMap fun kv =>
    if kv = "" then none
    else
      let parts := splitOnChar '=' kv
      some (parts.headD "", String.intercalate "=" parts.tail)

/-- Lexicographic comparison of character lists by code point, the order
Go's `<` on (UTF-8) strings induces. -/
def listCharLe : List Char → List Char → Bool
  | [], _ => true
  | _ :: _, [] => false
  | a :: as, b :: bs =>
    if a.toNat < b.toNat then true
    else if b.toNat < a.toNat then false
    else listCharLe as bs

/-- Go string comparison `s <= t`. -/
def strLe (s t : String) : Bool :=
  listCharLe s.data t.data

/-- Insertion into a lexicographically sorted list of strings. -/
def insertSorted (s : String) : List String → List String
  | [] => [s]
  | t :: ts => if strLe s t then s :: t :: ts else t :: insertSorted s ts

/-- Go `sort.Strings`: lexicographic string sort. -/
def sortStrings (l : List String) : List String :=
  l.foldr insertSorted []

/-- `sortQueryValues` (crawler.go): sorts the values of all multi-valued
query parameters.  Combined with Go's `url.Values.Encode()` this yields a
raw query with keys in sorted order and, per key, values in sorted order. -/
def sortQueryValues (u : URL) : URL :=
  let pairs := parseQueryPairs u.rawQuery
  let keys := sortStrings (pairs.map Prod.fst).eraseDups
  let items := (keys.map fun k =>
    (sortStrings ((pairs.filter fun p => p.1 = k).map Prod.snd)).map
      fun v => k ++ "=" ++ v).flatten
  { u with rawQuery := String.intercalate "&" items }

/-- The crawl-relevant state of the `Crawler` struct (crawler.go): the
origin hostname and alias hostnames given to `New`.  The store handle and
HTTP client are externals, passed to the operations that use them; the
`seen` map is threaded explicitly through the operations that read it. -/
structure CrawlerCfg where
  origin : String
  aliases : List String
deriving DecidableEq, Repr

/-- `Crawler.isLocal` (crawler.go): a URL is local when its hostname is
empty or equals the origin, both sides with a leading `www.` trimmed. -/
def isLocal (c : CrawlerCfg) (u : URL) : Bool :=
  u.hostname = "" || trimWww u.hostname = trimWww c.origin

/-- `Crawler.isSeen` (crawler.go): membership of `u.String()` in the seen
map (the mutex only serializes access and is not modelled). -/
def isSeen (seen : List String) (u : URL) : Bool :=
  u.str ∈ seen

/-- `Crawler.markSeen` (crawler.go): record `u.String()` in the seen map. -/
def markSeen (seen : List String) (u : URL) : List String :=
  u.str :: seen

/-- `isDynamicPage` (crawler.go): true when the last `/`-separated segment
of the path contains no `.` (no extension, so it does not look like a
static asset). -/
def isDynamicPage (u : URL) : Bool :=
  let parts := splitOnChar '/' u.path
  !((parts.getLastD "").data.contains '.')

/-- `isHTMLContentType` (crawler.go): the empty string, or a content type
whose part before the first `;` is exactly `text/html`. -/
def isHTMLContentType (s : String) : Bool :=
  let t := (splitOnChar ';' s).headD ""
  s = "" || t = "text/html"

/-- The node types of `golang.org/x/net/html` distinguished by the
rewriter. -/
inductive NodeType where
  | element
  | text
  | comment
  | document
  | doctype
deriving DecidableEq, Repr

/-- The `atom.Atom` values the rewriter switches on; every other element
is `other`. -/
inductive Atom where
  | a
  | img
  | link
  | script
  | meta
  | form
  | other
deriving DecidableEq, Repr

structure Attribute where
  key : String
  val : String
deriving DecidableEq, Repr

/-- A `html.Node` tree: node type, element atom, text/comment data,
attributes, and children. -/
inductive HtmlNode where
  | mk (ntype : NodeType) (dataAtom : Atom) (data : String)
       (attrs : List Attribute) (children : List HtmlNode)

def HtmlNode.ntype : HtmlNode → NodeType
  | .mk t _ _ _ _ => t

def HtmlNode.dataAtom : HtmlNode → Atom
  | .mk _ am _ _ _ => am

def HtmlNode.data : HtmlNode → String
  | .mk _ _ d _ _ => d

def HtmlNode.attrs : HtmlNode → List Attribute
  | .mk _ _ _ ats _ => ats

def HtmlNode.children : HtmlNode → List HtmlNode
  | .mk _ _ _ _ ch => ch

def HtmlNode.withData (n : HtmlNode) (d : String) : HtmlNode :=
  match n with
  | .mk t am _ ats ch => .mk t am d ats ch

def HtmlNode.withAttrs (n : HtmlNode) (ats : List Attribute) : HtmlNode :=
  match n with
  | .mk t am d _ ch => .mk t am d ats ch

/-- First attribute with the given key, modelling the pointer `getAttr`
(crawler.go) returns. -/
def getAttrVal (name : String) : List Attribute → Option String
  | [] => none
  | a :: rest => if a.key = name then some a.val else getAttrVal name rest

/-- Write through the pointer returned by `getAttr`: update the value of
the first attribute with the given key. -/
def setAttrVal (name v : String) : List Attribute → List Attribute
  | [] => []
  | a :: rest => if a.key = name then { a with val := v } :: rest
                 else a :: setAttrVal name v rest

def getAttr (n : HtmlNode) (name : String) : Option String :=
  getAttrVal name n.attrs

def setAttr (n : HtmlNode) (name v : String) : HtmlNode :=
  n.withAttrs (setAttrVal name v n.attrs)

/-- `getURLAttr` (crawler.go): find a named attribute and parse its value
to a URL with `url.Parse` (the parameter `pu`); the `a == nil` and
`u == nil` failures collapse into `none`, exactly the cases the callers
merge. -/
def getURLAttr (pu : String → Option URL) (n : HtmlNode) (name : String) :
    Option URL :=
  match getAttr n name with
  | none => none
  | some v => pu v

/-- `STATIC_REPLACEMENTS` (crawler.go): JS-escaped static-asset paths. -/
def STATIC_REPLACEMENTS : List String :=
  ["\\/wp-includes\\/js\\/wp-emoji-release.min.js",
   "\\/wp-content\\/plugins\\/jetpack\\/_inc\\/build\\/carousel\\/swiper-bundle.min.js"]

/-- One `srcset` entry in the `atom.Img` case of `staticateNode`
(crawler.go): `fmt.Sscanf(img, "%s %s", &src, &size)` reads the first two
space-separated tokens, the first is parsed as a URL (on parse failure the
entry is left unchanged by `continue`), relativized when local, and the
entry is reassembled as `fmt.Sprintf("%s %s", u, size)`. -/
def processSrcsetItem (c : CrawlerCfg) (pu : String → Option URL)
    (img : String) : String :=
  let toks := (splitOnChar ' ' img).filter fun t => t ≠ ""
  let src := toks.headD ""
  let size := (toks.drop 1).headD ""
  match pu src with
  | none => img
  | some u =>
    let u := if isLocal c u then relativize u else u
    u.str ++ " " ++ size

/-- `Crawler.staticateNode` (crawler.go): the per-node rewrite.  Comment
nodes have origin-revealing prefixes scrubbed; anchors are relativized and
contribute dynamic-looking local links; images have `src`, `srcset` and
the `data-*-file`/`data-permalink` attributes relativized; the
`atom.Link`, `atom.Script` and `atom.Meta` cases in the source begin with
`break // FIXME`, so everything after those breaks is unreachable and the
cases are no-ops; forms have a local `content` attribute value replaced by
`"#"`.  Children are untouched by the per-node pass. -/
def staticateNode (c : CrawlerCfg) (pu : String → Option URL)
    (origin : String) (n : HtmlNode) : HtmlNode × List URL :=
  if n.ntype = .comment then
    let d := replaceAll n.data ("https://" ++ origin ++ "/") "/"
    let d := replaceAll d ("http://" ++ origin ++ "/") "/"
    (n.withData d, [])
  else if n.ntype ≠ .element then (n, [])
  else
    match n.dataAtom with
    | .a =>
      match getURLAttr pu n "href" with
      | none => (n, [])
      | some u =>
        if !(isLocal c u) then (n, [])
        else if u.path = "" ∧ u.host = "" ∧ u.rawQuery = "" then
          -- Fragment reference to current page or empty URL. No follow.
          (n, [])
        else
          -- Follow: only things that don't look like static assets get crawled.
          let links := if isDynamicPage u then [u] else []
          -- Relativize
          (setAttr n "href" (relativize u).str, links)
    | .img =>
      let n :=
        match getURLAttr pu n "src" with
        | some u => if isLocal c u then setAttr n "src" (relativize u).str else n
        | none => n
      match getAttr n "srcset" with
      | none => (n, [])
      | some av =>
        let srcs := (splitOnChar ',' av).map (processSrcsetItem c pu)
        let n := setAttr n "srcset" (String.intercalate "," srcs)
        let n := ["data-large-file", "data-medium-file", "data-orig-file",
                  "data-permalink"].foldl
          (fun n d =>
            match getURLAttr pu n d with
            | some u => if isLocal c u then setAttr n d (relativize u).str else n
            | none => n) n
        (n, [])
    | .link => (n, [])    -- break // FIXME: the rest of the case is dead code
    | .script => (n, [])  -- break // FIXME: the rest of the case is dead code
    | .meta => (n, [])    -- break // FIXME: the rest of the case is dead code
    | .form =>
      -- We "defang" these for now: note the source reads the `content`
      -- attribute here, not `action`.
      match getURLAttr pu n "content" with
      | some u => if isLocal c u then (setAttr n "content" "#", []) else (n, [])
      | none => (n, [])
    | .other => (n, [])

mutual

/-- `Crawler.staticateDoc` (crawler.go): apply `staticateNode` to the root
and to every descendant in depth-first document order, collecting the
links.  The per-node pass never alters the child list, so rewriting the
original children in order is the same traversal the source performs over
the mutated tree. -/
def staticateDoc (c : CrawlerCfg) (pu : String → Option URL)
    (origin : String) : HtmlNode → HtmlNode × List URL
  | .mk t am d ats ch =>
    let top := staticateNode c pu origin (.mk t am d ats ch)
    let sub := staticateDocList c pu origin ch
    (HtmlNode.mk top.1.ntype top.1.dataAtom top.1.data top.1.attrs
       (sub.map Prod.fst),
     top.2 ++ (sub.map Prod.snd).flatten)

def staticateDocList (c : CrawlerCfg) (pu : String → Option URL)
    (origin : String) : List HtmlNode → List (HtmlNode × List URL)
  | [] => []
  | n :: ns => staticateDoc c pu origin n :: staticateDocList c pu origin ns

end

/-- The fields of the `proto/resource` `Resource` message the crawler
uses.  Modelled from the spec: the persisted unit with `content` bytes,
a `content_type` string, and a `redirect` target string (the generated
protobuf code is not part of the crawl engine sources); a freshly
constructed `Resource{...}` leaves unset fields at their zero value `""`. -/
structure Resource where
  content : String
  contentType : String
  redirect : String
deriving DecidableEq, Repr

/-- The parts of an `http.Response` the crawler reads: the status code,
the `Location` and `Content-Type` headers (empty when absent, as with
Go's `Header.Get`), and the body. -/
structure Response where
  statusCode : Nat
  location : String
  contentType : String
  body : String
deriving DecidableEq, Repr

/-- The statuses matched by the `switch resp.StatusCode` redirect cases
in `processURL` and `followRedirects` (crawler.go): exactly
301, 302, 303, 307 and 308. -/
def isRedirectStatus (code : Nat) : Bool :=
  code = 301 || code = 302 || code = 303 || code = 307 || code = 308

/-- `Crawler.processURL` (crawler.go): fetch one URL and classify the
response.  `fetchResp` stands for the result of `httpClient.Get`
(`none` = network error), `parseReq` for `url.ParseRequestURI`,
`parseHTML` for `html.Parse` (`none` = parse error), `render` for
`html.Render`, and `pu` for the `url.Parse` used inside the rewriter.
Returns the `Resource`, the discovered links, or `Except.error` where the
Go function returns a non-nil error. -/
def processURL (c : CrawlerCfg) (pu : String → Option URL)
    (parseReq : String → Option URL) (parseHTML : String → Option HtmlNode)
    (render : HtmlNode → String) (u : URL) (fetchResp : Option Response) :
    Except Unit (Resource × List URL) :=
  match fetchResp with
  | none => .error ()
  | some resp =>
    if isRedirectStatus resp.statusCode then
      match parseReq resp.location with
      | none => .error ()
      | some l => .ok ({ content := "", contentType := "",
                         redirect := resp.location }, [l])
    else
      -- Generated non-HTML resources get saved un-parsed.
      let r : Resource := { content := "", contentType := resp.contentType,
                            redirect := "" }
      if !(isHTMLContentType r.contentType) then
        .ok ({ r with content := resp.body }, [])
      else
        match parseHTML resp.body with
        | none => .error ()
        | some doc =>
          -- Convert the document to a static-compatible form with fully
          -- relative links, and extract links to other documents.
          let res := staticateDoc c pu u.hostname doc
          .ok ({ r with content := render res.1 }, res.2)

/-- The pair `(*url.URL, *http.Response)` returned by `followRedirects`:
`aborted` is `(nil, nil)`, `offsite l` is `(l, nil)` for an off-origin
target, `finalResp` carries the final URL and live response. -/
inductive FollowOutcome where
  | aborted
  | offsite (target : URL)
  | finalResp (u : URL) (resp : Response)
deriving DecidableEq, Repr

/-- The outcome of `followRedirects` together with the redirect-hop
records written to the store along the way, in write order. -/
structure FollowResult where
  outcome : FollowOutcome
  writes : List (String × Resource)
deriving DecidableEq, Repr

/-- `MAX_REDIRECTS` (crawler.go). -/
def MAX_REDIRECTS : Nat := 10

/-- The loop body of `Crawler.followRedirects` (crawler.go), with the
loop state (`u`, `redirCount`) explicit and the store writes accumulated
in `writes`.  `fetch` stands for `httpClient.Get` keyed by `u.String()`,
`parseReq` for `url.ParseRequestURI`, and `writeOk` for whether
`db.Write` succeeds (a failed write aborts with `(nil, nil)`). -/
def followRedirectsAux (c : CrawlerCfg) (fetch : String → Option Response)
    (parseReq : String → Option URL) (writeOk : String → Resource → Bool)
    (seen : List String) (u : URL) (redirCount : Nat)
    (writes : List (String × Resource)) : FollowResult :=
  let u := sortQueryValues u
  if isSeen seen u then ⟨.aborted, writes⟩
  else
    match fetch u.str with
    | none => ⟨.aborted, writes⟩
    | some resp =>
      if isRedirectStatus resp.statusCode then
        let loc := resp.location
        if h : MAX_REDIRECTS < redirCount then
          -- Too many redirects.
          ⟨.aborted, writes⟩
        else
          match parseReq loc with
          | none => ⟨.aborted, writes⟩
          | some l =>
            if isLocal c l then
              let rec_ := (rootRelativeURL u,
                           (⟨"", "", rootRelativeURL l⟩ : Resource))
              if writeOk rec_.1 rec_.2 then
                followRedirectsAux c fetch parseReq writeOk seen l
                  (redirCount + 1) (writes ++ [rec_])
              else ⟨.aborted, writes⟩
            else
              let rec_ := (rootRelativeURL u, (⟨"", "", loc⟩ : Resource))
              if writeOk rec_.1 rec_.2 then ⟨.offsite l, writes ++ [rec_]⟩
              else ⟨.aborted, writes⟩
      else ⟨.finalResp u resp, writes⟩
termination_by MAX_REDIRECTS + 1 - redirCount
decreasing_by
  simp only [MAX_REDIRECTS] at h ⊢
  omega

/-- `Crawler.followRedirects` (crawler.go): follow and save a chain of
redirects starting with `redirCount = 0` and nothing written. -/
def followRedirects (c : CrawlerCfg) (fetch : String → Option Response)
    (parseReq : String → Option URL) (writeOk : String → Resource → Bool)
    (seen : List String) (u : URL) : FollowResult :=
  followRedirectsAux c fetch parseReq writeOk seen u 0 []

/-- The shared crawl-run state of `Crawler.CrawlP` (crawler.go): the seen
map (`Crawler.seen`), the `toDo` frontier queue, the `fetched` admission
counter, and the `extraLinks` overflow set.  The mutex / condition
variable only serialize access; admission decisions are made solely by
the single `resultProcessor` goroutine (and the one initial
`enqueueUrl`), so the admission path is modelled sequentially. -/
structure CrawlState where
  seen : List String
  toDo : List URL
  fetched : Nat
  extraLinks : List String
deriving DecidableEq, Repr

/-- Insertion into a map-backed string set (`map[string]struct{}{}`). -/
def insertStr (s : String) (l : List String) : List String :=
  if s ∈ l then l else s :: l

/-- The link normalization in `resultProcessor` (crawler.go): default an
empty path to `/` and strip the fragment.  (No query canonicalization
happens on this path.) -/
def normalizeLink (u : URL) : URL :=
  { u with path := if u.path = "" then "/" else u.path, fragment := "" }

/-- One iteration of the `for _, u := range resp.links` loop of
`resultProcessor` (crawler.go): normalize, drop non-local or seen links,
divert links beyond `fetchLimit` to `extraLinks`, otherwise mark seen,
append to the frontier and count the admission. -/
def admitLink (c : CrawlerCfg) (fetchLimit : Nat) (st : CrawlState)
    (u0 : URL) : CrawlState :=
  let u := normalizeLink u0
  if !(isLocal c u) || isSeen st.seen u then st
  else if fetchLimit ≤ st.fetched then
    { st with extraLinks := insertStr u.str st.extraLinks }
  else
    { st with seen := markSeen st.seen u, toDo := st.toDo ++ [u],
              fetched := st.fetched + 1 }

/-- The whole link loop of `resultProcessor` for one worker result. -/
def processLinks (c : CrawlerCfg) (fetchLimit : Nat) (st : CrawlState)
    (links : List URL) : CrawlState :=
  links.foldl (admitLink c fetchLimit) st

/-- `enqueueUrl` (crawler.go, inside `CrawlP`): unconditionally mark seen,
append to the frontier and count the admission (used for the seed URL). -/
def enqueueUrl (st : CrawlState) (u : URL) : CrawlState :=
  { st with seen := markSeen st.seen u, toDo := st.toDo ++ [u],
            fetched := st.fetched + 1 }

/-- The start of `CrawlP` (crawler.go): empty state, the seed's empty
path defaulted to `/`, then `enqueueUrl`. -/
def crawlStart (seed : URL) : CrawlState :=
  enqueueUrl ⟨[], [], 0, []⟩
    { seed with path := if seed.path = "" then "/" else seed.path }

/-- A crawl run as the admission logic sees it: the seed enqueue followed
by the `resultProcessor` link loop for each worker result, in the order
the results channel delivers them (`batches` ranges over every possible
sequence of discovered-link lists). -/
def crawlRun (c : CrawlerCfg) (fetchLimit : Nat) (seed : URL)
    (batches : List (List URL)) : CrawlState :=
  batches.foldl (processLinks c fetchLimit) (crawlStart seed)

/-- Modelled from the spec: the normalization claim C2 attributes to the
frontier ("fragment stripped, path defaulted to `/` when empty,
multi-valued query parameters value-sorted for a canonical string form"),
for comparison with the normalization `resultProcessor` actually
performs. -/
def claimedNormalize (u : URL) : URL :=
  sortQueryValues (normalizeLink u)

/-- Modelled from the spec: the locality predicate claim C7 describes —
"hostname matches the crawl's origin or one of its configured aliases,
ignoring a leading `www.`" — for comparison with `isLocal`. -/
def claimedIsLocal (c : CrawlerCfg) (u : URL) : Bool :=
  trimWww u.hostname = trimWww c.origin ||
    c.aliases.any fun al => trimWww u.hostname = trimWww al

/-- Modelled from the spec: the inline-script rewriting claim C8
describes (each `STATIC_REPLACEMENTS` pattern, prefixed with the
JS-escaped `https:\/\/` plus the origin, textually replaced by the bare
pattern).  In the source this text manipulation appears only after the
`break // FIXME` that opens the `atom.Script` case, so it is unreachable. -/
def scriptTextRewrite (origin : String) (js : String) : String :=
  STATIC_REPLACEMENTS.foldl
    (fun js s => replaceAll js ("https:\\/\\/" ++ origin ++ s) s) js

/-- Frontier/seen-set coupling maintained by the admission path: frontier
entries are pairwise distinct by `u.String()`, and every frontier entry's
string is in the seen set. -/
def SeenInv (st : CrawlState) : Prop :=
  (st.toDo.map URL.str).Nodup ∧ ∀ s ∈ st.toDo.map URL.str, s ∈ st.seen

/-- Counting discipline of the admission path: `fetched` never exceeds
the limit, and equals the number of URLs ever admitted to the frontier
(the dispatcher's dequeues are not modelled, so `toDo` accumulates every
admission). -/
def BoundInv (lim : Nat) (st : CrawlState) : Prop :=
  st.fetched ≤ lim ∧ st.toDo.length = st.fetched

theorem admitLink_seenInv (c : CrawlerCfg) (lim : Nat) (st : CrawlState)
    (u0 : URL) (h : SeenInv st) : SeenInv (admitLink c lim st u0) := by
  obtain ⟨hnd, hmem⟩ := h
  simp only [admitLink]
  split
  · exact ⟨hnd, hmem⟩
  · rename_i hvia
    split
    · exact ⟨hnd, hmem⟩
    · simp only [Bool.or_eq_true, Bool.not_eq_true', not_or] at hvia
      obtain ⟨-, hseen⟩ := hvia
      have hnotin : (normalizeLink u0).str ∉ st.seen := by
        intro hc
        simp [isSeen, hc] at hseen
      refine ⟨?_, ?_⟩
      · simp only [CrawlState.toDo] at *
        rw [List.map_append]
        rw [List.nodup_append]
        refine ⟨hnd, by simp, ?_⟩
        intro s hs
        simp only [List.map_cons, List.map_nil, List.mem_cons,
          List.not_mem_nil, or_false]
        intro hq
        exact hnotin (hq ▸ hmem s hs)
      · intro s hs
        simp only [CrawlState.toDo, CrawlState.seen] at *
        rw [List.map_append] at hs
        rcases List.mem_append.mp hs with hl | hr
        · exact List.mem_cons_of_mem _ (hmem s hl)
        · simp only [List.map_cons, List.map_nil, List.mem_cons,
            List.not_mem_nil, or_false] at hr
          simp [markSeen, hr]

theorem processLinks_seenInv (c : CrawlerCfg) (lim : Nat) :
    ∀ (links : List URL) (st : CrawlState),
      SeenInv st → SeenInv (processLinks c lim st links) := by
  intro links
  induction links with
  | nil => intro st h; exact h
  | cons u rest ih =>
    intro st h
    exact ih _ (admitLink_seenInv c lim st u h)

theorem crawlStart_seenInv (seed : URL) : SeenInv (crawlStart seed) := by
  constructor
  · simp [crawlStart, enqueueUrl]
  · intro s hs
    simp only [crawlStart, enqueueUrl, CrawlState.toDo, CrawlState.seen,
      List.nil_append, List.map_cons, List.map_nil, List.mem_cons,
      List.not_mem_nil, or_false] at *
    simp [markSeen, hs]

theorem crawlRun_seenInv (c : CrawlerCfg) (lim : Nat) (seed : URL)
    (batches : List (List URL)) : SeenInv (crawlRun c lim seed batches) := by
  unfold crawlRun
  generalize crawlStart seed = st, crawlStart_seenInv seed = h
  induction batches generalizing st with
  | nil => exact h
  | cons b rest ih => exact ih _ (processLinks_seenInv c lim b st h)

theorem admitLink_boundInv (c : CrawlerCfg) (lim : Nat) (st : CrawlState)
    (u0 : URL) (h : BoundInv lim st) : BoundInv lim (admitLink c lim st u0) := by
  obtain ⟨hle, hlen⟩ := h
  simp only [admitLink]
  split
  · exact ⟨hle, hlen⟩
  · split
    · exact ⟨hle, hlen⟩
    · rename_i hlim
      constructor
      · show st.fetched + 1 ≤ lim
        omega
      · show (st.toDo ++ [normalizeLink u0]).length = st.fetched + 1
        simp [hlen]

theorem processLinks_boundInv (c : CrawlerCfg) (lim : Nat) :
    ∀ (links : List URL) (st : CrawlState),
      BoundInv lim st → BoundInv lim (processLinks c lim st links) := by
  intro links
  induction links with
  | nil => intro st h; exact h
  | cons u rest ih =>
    intro st h
    exact ih _ (admitLink_boundInv c lim st u h)

theorem crawlStart_boundInv (lim : Nat) (seed : URL) (h : 1 ≤ lim) :
    BoundInv lim (crawlStart seed) := by
  constructor
  · simpa [crawlStart, enqueueUrl] using h
  · simp [crawlStart, enqueueUrl]

theorem crawlRun_boundInv (c : CrawlerCfg) (lim : Nat) (seed : URL)
    (batches : List (List URL)) (h : 1 ≤ lim) :
    BoundInv lim (crawlRun c lim seed batches) := by
  unfold crawlRun
  generalize crawlStart seed = st, crawlStart_boundInv lim seed h = h0
  induction batches generalizing st with
  | nil => exact h0
  | cons b rest ih => exact ih _ (processLinks_boundInv c lim b st h0)

theorem followRedirectsAux_writes_le (c : CrawlerCfg)
    (fetch : String → Option Response) (parseReq : String → Option URL)
    (writeOk : String → Resource → Bool) (seen : List String)
    (u : URL) (redirCount : Nat) (writes : List (String × Resource)) :
    (followRedirectsAux c fetch parseReq writeOk seen u redirCount
        writes).writes.length
      ≤ writes.length + (MAX_REDIRECTS + 1 - redirCount) := by
  induction u, redirCount, writes using
      followRedirectsAux.induct c fetch parseReq writeOk seen <;>
    (rw [followRedirectsAux]
     simp only [*]
     simp [MAX_REDIRECTS, List.length_append, List.length_cons,
       List.length_nil] at *
     try omega)
  rename_i hrc ih
  exact le_trans ih (by omega)

theorem splitOnCharAux_head (sep : Char) :
    ∀ (cs acc : List Char), ∃ rest,
      splitOnCharAux sep cs acc
        = (acc.reverse ++ cs.takeWhile fun ch => !(ch = sep)) :: rest := by
  intro cs
  induction cs with
  | nil =>
    intro acc
    exact ⟨[], by simp [splitOnCharAux]⟩
  | cons c cs ih =>
    intro acc
    by_cases hc : c = sep
    · refine ⟨splitOnCharAux sep cs [], ?_⟩
      simp [splitOnCharAux, hc, List.takeWhile_cons]
    · obtain ⟨rest, hr⟩ := ih (c :: acc)
      refine ⟨rest, ?_⟩
      simp [splitOnCharAux, hc, hr, List.takeWhile_cons]

theorem splitOnChar_head (sep : Char) (s : String) :
    (splitOnChar sep s).head?.getD ""
      = String.mk (s.data.takeWhile fun ch => !(ch = sep)) := by
  obtain ⟨rest, hr⟩ := splitOnCharAux_head sep s.data []
  simp [splitOnChar, hr]

/-- C1: for a crawl run started by `CrawlP` with fetch limit at least 1,
the total number of URLs admitted to the frontier — the `fetched` counter,
which also equals the frontier's accumulated length in this model, and
hence bounds the fetches the dispatcher can issue — never exceeds the
limit, no matter how many links the result batches deliver; and a viable
(local, unseen) link processed once the limit is reached is recorded in
the overflow set with the frontier, seen-set and counter unchanged. -/
theorem crawlP_fetchLimit (c : CrawlerCfg) (fetchLimit : Nat) (seed : URL)
    (batches : List (List URL)) (hlim : 1 ≤ fetchLimit) :
    (crawlRun c fetchLimit seed batches).fetched ≤ fetchLimit ∧
    (crawlRun c fetchLimit seed batches).toDo.length ≤ fetchLimit ∧
    ∀ (st : CrawlState) (u : URL), fetchLimit ≤ st.fetched →
      isLocal c (normalizeLink u) = true →
      isSeen st.seen (normalizeLink u) = false →
      admitLink c fetchLimit st u
        = { st with extraLinks := insertStr (normalizeLink u).str st.extraLinks } := by
  obtain ⟨h1, h2⟩ := crawlRun_boundInv c fetchLimit seed batches hlim
  refine ⟨h1, by omega, ?_⟩
  intro st u hf hl hs
  simp only [admitLink]
  simp [hl, hs, hf]

/-- C1 witness: the limit-2 instance where three local links are
discovered after the seed; at most two admissions ever happen. -/
theorem crawlP_fetchLimit_witness :
    (crawlRun ⟨"example.com", []⟩ 2 ⟨"https", "example.com", "/", "", ""⟩
        [[⟨"", "", "/a", "", ""⟩, ⟨"", "", "/b", "", ""⟩,
          ⟨"", "", "/c", "", ""⟩]]).fetched ≤ 2 :=
  (crawlP_fetchLimit ⟨"example.com", []⟩ 2
    ⟨"https", "example.com", "/", "", ""⟩
    [[⟨"", "", "/a", "", ""⟩, ⟨"", "", "/b", "", ""⟩, ⟨"", "", "/c", "", ""⟩]]
    (by decide)).1

/-- C2 counterexample: two discovered links that differ only in the
order of the values of the repeated query parameter `a` are equal under
the claimed normalization (which value-sorts multi-valued query
parameters), yet both are admitted to the frontier: `resultProcessor`
deduplicates on the un-canonicalized `u.String()` after only defaulting
the path and stripping the fragment. -/
theorem crawlP_dedup_counterexample :
    claimedNormalize ⟨"", "", "/", "a=2&a=1", ""⟩
        = claimedNormalize ⟨"", "", "/", "a=1&a=2", ""⟩ ∧
    ((crawlRun ⟨"example.com", []⟩ 10 ⟨"https", "example.com", "/", "", ""⟩
        [[⟨"", "", "/", "a=2&a=1", ""⟩, ⟨"", "", "/", "a=1&a=2", ""⟩]]).toDo.filter
      fun v => decide (claimedNormalize v
        = claimedNormalize ⟨"", "", "/", "a=2&a=1", ""⟩)).length = 2 := by
  exact ⟨by decide, by decide⟩

/-- C2 (amended): under the normalization the admission path actually
performs — fragment stripped, empty path defaulted to `/`, query string
left exactly as discovered — each distinct normalized URL is admitted to
the frontier at most once per run (the entries are pairwise distinct by
their string form), and a local, not-yet-seen link is admitted whenever
the fetch limit has not been reached. -/
theorem crawlP_dedup (c : CrawlerCfg) (fetchLimit : Nat) (seed : URL)
    (batches : List (List URL)) :
    ((crawlRun c fetchLimit seed batches).toDo.map URL.str).Nodup ∧
    ∀ (st : CrawlState) (u : URL),
      isLocal c (normalizeLink u) = true →
      isSeen st.seen (normalizeLink u) = false →
      st.fetched < fetchLimit →
      admitLink c fetchLimit st u
        = { st with seen := markSeen st.seen (normalizeLink u),
                    toDo := st.toDo ++ [normalizeLink u],
                    fetched := st.fetched + 1 } := by
  refine ⟨(crawlRun_seenInv c fetchLimit seed batches).1, ?_⟩
  intro st u hl hs hf
  simp only [admitLink]
  simp [hl, hs, Nat.not_le.mpr hf]

/-- C2 witness: a fresh local link is admitted: marked seen, appended to
the frontier, counted. -/
theorem crawlP_dedup_witness :
    admitLink ⟨"example.com", []⟩ 5
        ⟨["https://example.com/"], [], 1, []⟩ ⟨"", "", "/a", "", ""⟩
      = ⟨["/a", "https://example.com/"], [⟨"", "", "/a", "", ""⟩], 2, []⟩ :=
  (crawlP_dedup ⟨"example.com", []⟩ 5 ⟨"https", "example.com", "/", "", ""⟩
    []).2 ⟨["https://example.com/"], [], 1, []⟩ ⟨"", "", "/a", "", ""⟩
    (by decide) (by decide) (by decide)

/-- C3 counterexample: 300 is a 3xx status carrying a `Location` header,
but `processURL`'s redirect switch matches only 301/302/303/307/308, so
the response is handled as content (here with an empty content type, so
through the HTML path): the returned Resource has an empty `redirect` and
there is no discovered link, where the claim requires `redirect =
"/new-path"` and one link. -/
theorem processURL_redirect_counterexample :
    processURL ⟨"example.com", []⟩ (fun _ => none)
      (fun _ => some ⟨"", "", "/new-path", "", ""⟩)
      (fun _ => some (.mk .text .other "x" [] []))
      (fun _ => "rendered") ⟨"https", "example.com", "/p", "", ""⟩
      (some ⟨300, "/new-path", "", "body"⟩)
      = .ok ({ content := "rendered", contentType := "", redirect := "" }, []) :=
  rfl

/-- C3 (amended): for a response whose status is one of the redirect
statuses the fetcher handles — 301, 302, 303, 307 or 308 — and whose
`Location` header parses, `processURL` returns a Resource whose
`redirect` field is the raw `Location` value, with empty content and
content type, together with exactly one discovered link: the parsed
`Location` target.  The single supplied response is all it consults, so
the chain is not followed by the fetcher itself. -/
theorem processURL_redirect (c : CrawlerCfg) (pu : String → Option URL)
    (parseReq : String → Option URL) (parseHTML : String → Option HtmlNode)
    (render : HtmlNode → String) (u : URL) (resp : Response) (l : URL)
    (hs : isRedirectStatus resp.statusCode = true)
    (hl : parseReq resp.location = some l) :
    processURL c pu parseReq parseHTML render u (some resp)
      = .ok ({ content := "", contentType := "",
               redirect := resp.location }, [l]) := by
  simp [processURL, hs, hl]

/-- C3 witness: the spec's own example — a 302 with `Location:
/new-path` yields a redirect Resource and that sole link. -/
theorem processURL_redirect_witness :
    processURL ⟨"example.com", []⟩ (fun _ => none)
      (fun s => if s = "/new-path" then some ⟨"", "", "/new-path", "", ""⟩
                else none)
      (fun _ => none) (fun _ => "") ⟨"https", "example.com", "/p", "", ""⟩
      (some ⟨302, "/new-path", "", ""⟩)
      = .ok ({ content := "", contentType := "", redirect := "/new-path" },
             [⟨"", "", "/new-path", "", ""⟩]) :=
  processURL_redirect ⟨"example.com", []⟩ (fun _ => none)
    (fun s => if s = "/new-path" then some ⟨"", "", "/new-path", "", ""⟩
              else none)
    (fun _ => none) (fun _ => "") ⟨"https", "example.com", "/p", "", ""⟩
    ⟨302, "/new-path", "", ""⟩ ⟨"", "", "/new-path", "", ""⟩
    (by decide) (by decide)

/-- C4 counterexample: a persistent cycle of same-origin 301s makes
`followRedirects` persist eleven redirect-hop records, not at most ten:
the guard `redirCount > MAX_REDIRECTS` only fires after an eleventh hop
has already been written.  Resolution still ends with no result. -/
theorem followRedirects_counterexample :
    (followRedirects ⟨"example.com", []⟩
        (fun _ => some ⟨301, "https://example.com/loop", "", ""⟩)
        (fun s => if s = "https://example.com/loop"
                  then some ⟨"https", "example.com", "/loop", "", ""⟩
                  else none)
        (fun _ _ => true) []
        ⟨"https", "example.com", "/start", "", ""⟩).writes.length = 11 ∧
    ¬((followRedirects ⟨"example.com", []⟩
        (fun _ => some ⟨301, "https://example.com/loop", "", ""⟩)
        (fun s => if s = "https://example.com/loop"
                  then some ⟨"https", "example.com", "/loop", "", ""⟩
                  else none)
        (fun _ _ => true) []
        ⟨"https", "example.com", "/start", "", ""⟩).writes.length ≤ 10) ∧
    (followRedirects ⟨"example.com", []⟩
        (fun _ => some ⟨301, "https://example.com/loop", "", ""⟩)
        (fun s => if s = "https://example.com/loop"
                  then some ⟨"https", "example.com", "/loop", "", ""⟩
                  else none)
        (fun _ _ => true) []
        ⟨"https", "example.com", "/start", "", ""⟩).outcome
      = .aborted := by
  have hlen : (followRedirects ⟨"example.com", []⟩
      (fun _ => some ⟨301, "https://example.com/loop", "", ""⟩)
      (fun s => if s = "https://example.com/loop"
                then some ⟨"https", "example.com", "/loop", "", ""⟩
                else none)
      (fun _ _ => true) []
      ⟨"https", "example.com", "/start", "", ""⟩).writes.length = 11 := by
    simp [followRedirects, followRedirectsAux, isSeen, sortQueryValues,
      parseQueryPairs, splitOnChar, splitOnCharAux, sortStrings,
      isRedirectStatus, isLocal, URL.str, URL.hostname, trimWww,
      rootRelativeURL, relativize, MAX_REDIRECTS]
  have hout : (followRedirects ⟨"example.com", []⟩
      (fun _ => some ⟨301, "https://example.com/loop", "", ""⟩)
      (fun s => if s = "https://example.com/loop"
                then some ⟨"https", "example.com", "/loop", "", ""⟩
                else none)
      (fun _ _ => true) []
      ⟨"https", "example.com", "/start", "", ""⟩).outcome = .aborted := by
    simp [followRedirects, followRedirectsAux, isSeen, sortQueryValues,
      parseQueryPairs, splitOnChar, splitOnCharAux, sortStrings,
      isRedirectStatus, isLocal, URL.str, URL.hostname, trimWww,
      rootRelativeURL, relativize, MAX_REDIRECTS]
  exact ⟨hlen, by omega, hout⟩

/-- C4 (amended): `followRedirects` is total — its hop counter bounds the
recursion — and every run persists at most `MAX_REDIRECTS + 1 = 11`
redirect-hop records (the guard `redirCount > MAX_REDIRECTS` admits an
eleventh hop write before firing, one more than the claimed ten); a hop
whose `Location` header fails to parse as a request URI aborts the
resolution immediately with no result and no write for that hop. -/
theorem followRedirects_bound (c : CrawlerCfg)
    (fetch : String → Option Response) (parseReq : String → Option URL)
    (writeOk : String → Resource → Bool) (seen : List String) :
    (∀ u : URL,
      (followRedirects c fetch parseReq writeOk seen u).writes.length
        ≤ MAX_REDIRECTS + 1) ∧
    (∀ (u : URL) (resp : Response),
      isSeen seen (sortQueryValues u) = false →
      fetch (sortQueryValues u).str = some resp →
      isRedirectStatus resp.statusCode = true →
      parseReq resp.location = none →
      followRedirects c fetch parseReq writeOk seen u = ⟨.aborted, []⟩) := by
  constructor
  · intro u
    simpa using followRedirectsAux_writes_le c fetch parseReq writeOk seen u 0 []
  · intro u resp hseen hfetch hstat hloc
    rw [followRedirects, followRedirectsAux]
    simp [hseen, hfetch, hstat, hloc, MAX_REDIRECTS]

/-- C4 witness: a first hop that is a 301 with an unparseable `Location`
aborts with no result and no writes, and the global write bound applies. -/
theorem followRedirects_bound_witness :
    ((followRedirects ⟨"example.com", []⟩
        (fun _ => some ⟨301, "bad loc", "", ""⟩) (fun _ => none)
        (fun _ _ => true) []
        ⟨"https", "example.com", "/s", "", ""⟩).writes.length
      ≤ MAX_REDIRECTS + 1) ∧
    followRedirects ⟨"example.com", []⟩
        (fun _ => some ⟨301, "bad loc", "", ""⟩) (fun _ => none)
        (fun _ _ => true) []
        ⟨"https", "example.com", "/s", "", ""⟩
      = ⟨.aborted, []⟩ :=
  ⟨(followRedirects_bound ⟨"example.com", []⟩
      (fun _ => some ⟨301, "bad loc", "", ""⟩) (fun _ => none)
      (fun _ _ => true) []).1 ⟨"https", "example.com", "/s", "", ""⟩,
   (followRedirects_bound ⟨"example.com", []⟩
      (fun _ => some ⟨301, "bad loc", "", ""⟩) (fun _ => none)
      (fun _ _ => true) []).2 ⟨"https", "example.com", "/s", "", ""⟩
      ⟨301, "bad loc", "", ""⟩ (by decide) (by decide) (by decide) (by decide)⟩

/-- C5: for an anchor element whose `href` parses to a local
(same-origin) URL that is not a fragment-only reference, `staticateNode`
adds a copy of the pre-rewrite URL to the discovered links exactly when
the last path segment contains no `.` (`isDynamicPage`), and in either
case rewrites the `href` attribute to the relative form with scheme and
host cleared. -/
theorem staticateNode_anchor (c : CrawlerCfg) (pu : String → Option URL)
    (origin t : String) (ats : List Attribute) (ch : List HtmlNode)
    (href : String) (u : URL)
    (ha : getAttrVal "href" ats = some href)
    (hu : pu href = some u)
    (hl : isLocal c u = true)
    (hf : ¬(u.path = "" ∧ u.host = "" ∧ u.rawQuery = "")) :
    staticateNode c pu origin (.mk .element .a t ats ch)
      = (setAttr (.mk .element .a t ats ch) "href" (relativize u).str,
         if isDynamicPage u then [u] else []) := by
  simp [staticateNode, getURLAttr, getAttr, HtmlNode.attrs, HtmlNode.ntype,
    HtmlNode.dataAtom, ha, hu, hl, hf]

/-- C5 witness: the spec's two examples — `/photo/IMG_1.jpg` is
relativized but not discovered; `/archive/42` is relativized and
discovered. -/
theorem staticateNode_anchor_witness :
    staticateNode ⟨"example.com", []⟩
        (fun s => if s = "https://example.com/photo/IMG_1.jpg"
          then some ⟨"https", "example.com", "/photo/IMG_1.jpg", "", ""⟩
          else if s = "https://example.com/archive/42"
          then some ⟨"https", "example.com", "/archive/42", "", ""⟩
          else none)
        "example.com"
        (.mk .element .a "a"
          [⟨"href", "https://example.com/photo/IMG_1.jpg"⟩] [])
      = (.mk .element .a "a" [⟨"href", "/photo/IMG_1.jpg"⟩] [], []) ∧
    staticateNode ⟨"example.com", []⟩
        (fun s => if s = "https://example.com/photo/IMG_1.jpg"
          then some ⟨"https", "example.com", "/photo/IMG_1.jpg", "", ""⟩
          else if s = "https://example.com/archive/42"
          then some ⟨"https", "example.com", "/archive/42", "", ""⟩
          else none)
        "example.com"
        (.mk .element .a "a"
          [⟨"href", "https://example.com/archive/42"⟩] [])
      = (.mk .element .a "a" [⟨"href", "/archive/42"⟩] [],
         [⟨"https", "example.com", "/archive/42", "", ""⟩]) :=
  ⟨staticateNode_anchor ⟨"example.com", []⟩
      (fun s => if s = "https://example.com/photo/IMG_1.jpg"
        then some ⟨"https", "example.com", "/photo/IMG_1.jpg", "", ""⟩
        else if s = "https://example.com/archive/42"
        then some ⟨"https", "example.com", "/archive/42", "", ""⟩
        else none)
      "example.com" "a" [⟨"href", "https://example.com/photo/IMG_1.jpg"⟩] []
      "https://example.com/photo/IMG_1.jpg"
      ⟨"https", "example.com", "/photo/IMG_1.jpg", "", ""⟩
      (by decide) (by decide) (by decide) (by decide),
   staticateNode_anchor ⟨"example.com", []⟩
      (fun s => if s = "https://example.com/photo/IMG_1.jpg"
        then some ⟨"https", "example.com", "/photo/IMG_1.jpg", "", ""⟩
        else if s = "https://example.com/archive/42"
        then some ⟨"https", "example.com", "/archive/42", "", ""⟩
        else none)
      "example.com" "a" [⟨"href", "https://example.com/archive/42"⟩] []
      "https://example.com/archive/42"
      ⟨"https", "example.com", "/archive/42", "", ""⟩
      (by decide) (by decide) (by decide) (by decide)⟩

/-- C6 counterexample: for an HTML response observed with `Content-Type:
text/html; charset=utf-8`, the returned Resource keeps that observed
value — `processURL` in the current engine does not fix the content type
to the canonical `text/html`. -/
theorem processURL_html_counterexample :
    processURL ⟨"example.com", []⟩ (fun _ => none) (fun _ => none)
        (fun _ => some (.mk .text .other "x" [] []))
        (fun _ => "rendered") ⟨"https", "example.com", "/p", "", ""⟩
        (some ⟨200, "", "text/html; charset=utf-8", "body"⟩)
      = .ok ({ content := "rendered",
               contentType := "text/html; charset=utf-8",
               redirect := "" }, []) ∧
    ("text/html; charset=utf-8" : String) ≠ "text/html" :=
  ⟨rfl, by decide⟩

/-- C6 (amended): for a response with a non-redirect status and an
HTML-classified content type whose body parses, `processURL` parses the
body to a document tree, applies the link rewriter `staticateDoc`,
re-serializes the mutated tree as the Resource's content and returns the
rewriter's discovered links; the content type is kept at the observed
header value rather than canonicalized. -/
theorem processURL_html (c : CrawlerCfg) (pu parseReq : String → Option URL)
    (parseHTML : String → Option HtmlNode) (render : HtmlNode → String)
    (u : URL) (resp : Response) (doc : HtmlNode)
    (hs : isRedirectStatus resp.statusCode = false)
    (hh : isHTMLContentType resp.contentType = true)
    (hp : parseHTML resp.body = some doc) :
    processURL c pu parseReq parseHTML render u (some resp)
      = .ok ({ content := render (staticateDoc c pu u.hostname doc).1,
               contentType := resp.contentType, redirect := "" },
             (staticateDoc c pu u.hostname doc).2) := by
  simp [processURL, hs, hh, hp]

/-- C6 witness: a concrete HTML response run through a one-node document
and a constant renderer. -/
theorem processURL_html_witness :
    processURL ⟨"example.com", []⟩ (fun _ => none) (fun _ => none)
        (fun _ => some (.mk .text .other "x" [] []))
        (fun _ => "rendered") ⟨"https", "example.com", "/p", "", ""⟩
        (some ⟨200, "", "text/html", "body"⟩)
      = .ok ({ content := "rendered", contentType := "text/html",
               redirect := "" }, []) :=
  processURL_html ⟨"example.com", []⟩ (fun _ => none) (fun _ => none)
    (fun _ => some (.mk .text .other "x" [] []))
    (fun _ => "rendered") ⟨"https", "example.com", "/p", "", ""⟩
    ⟨200, "", "text/html", "body"⟩ (.mk .text .other "x" [] [])
    (by decide) (by decide) rfl

/-- C7 counterexample: with origin `example.com` and configured alias
`mirror.org`, a URL on the alias host satisfies the claimed locality
predicate, but `isLocal` rejects it: the alias list stored by `New` is
never consulted. -/
theorem isLocal_counterexample :
    claimedIsLocal ⟨"example.com", ["mirror.org"]⟩
        ⟨"https", "mirror.org", "/", "", ""⟩ = true ∧
    isLocal ⟨"example.com", ["mirror.org"]⟩
        ⟨"https", "mirror.org", "/", "", ""⟩ = false := by
  exact ⟨by decide, by decide⟩

/-- C7 (amended): a URL is classified local iff its hostname is empty (a
relative URL) or its hostname equals the crawl's origin hostname with a
leading `www.` ignored on both sides; the configured alias hostnames play
no part in the decision. -/
theorem isLocal_characterization (c : CrawlerCfg) (u : URL) :
    (isLocal c u = true ↔
      u.hostname = "" ∨ trimWww u.hostname = trimWww c.origin) ∧
    ∀ al : List String, isLocal ⟨c.origin, al⟩ u = isLocal c u := by
  constructor
  · simp [isLocal]
  · intro al
    rfl

/-- C8 counterexample: a script element whose inline text contains a
`STATIC_REPLACEMENTS` pattern prefixed by the JS-escaped origin is
returned by `staticateNode` completely unchanged, with no links — the
`atom.Script` case exits at its opening `break // FIXME` — although the
rewriting the claim describes (`scriptTextRewrite`) would strip the
origin prefix from that text. -/
theorem staticateNode_script_counterexample :
    staticateNode ⟨"example.com", []⟩ (fun _ => none) "example.com"
        (.mk .element .script "script" []
          [.mk .text .other
            "var e = \"https:\\/\\/example.com\\/wp-includes\\/js\\/wp-emoji-release.min.js\";"
            [] []])
      = (.mk .element .script "script" []
          [.mk .text .other
            "var e = \"https:\\/\\/example.com\\/wp-includes\\/js\\/wp-emoji-release.min.js\";"
            [] []], []) ∧
    scriptTextRewrite "example.com"
        "var e = \"https:\\/\\/example.com\\/wp-includes\\/js\\/wp-emoji-release.min.js\";"
      ≠ "var e = \"https:\\/\\/example.com\\/wp-includes\\/js\\/wp-emoji-release.min.js\";" :=
  ⟨rfl, by decide⟩

/-- C8 (amended): the rewriter currently skips script elements entirely:
the `atom.Script` case is disabled by an early `break`, so neither the
`src` attribute nor the inline script text is rewritten, and no links are
extracted from script bodies for crawling. -/
theorem staticateNode_script (c : CrawlerCfg) (pu : String → Option URL)
    (origin t : String) (ats : List Attribute) (ch : List HtmlNode) :
    staticateNode c pu origin (.mk .element .script t ats ch)
      = (.mk .element .script t ats ch, []) :=
  rfl

/-- C9: the form case defangs nothing for real forms.  The `atom.Form`
case of `staticateNode` reads the `content` attribute (a copy of the
`atom.Meta` case above it), so a form whose same-origin `action`
attribute the claim — and the source's own "We defang these for now"
comment — says is neutralized is left completely untouched, while a
same-origin `content` attribute on a form is what gets replaced by
`"#"`. -/
theorem staticateNode_form_divergence :
    staticateNode ⟨"example.com", []⟩
        (fun s => if s = "https://example.com/submit"
          then some ⟨"https", "example.com", "/submit", "", ""⟩ else none)
        "example.com"
        (.mk .element .form "form"
          [⟨"action", "https://example.com/submit"⟩] [])
      = (.mk .element .form "form"
          [⟨"action", "https://example.com/submit"⟩] [], []) ∧
    staticateNode ⟨"example.com", []⟩
        (fun s => if s = "https://example.com/x"
          then some ⟨"https", "example.com", "/x", "", ""⟩ else none)
        "example.com"
        (.mk .element .form "form" [⟨"content", "https://example.com/x"⟩] [])
      = (.mk .element .form "form" [⟨"content", "#"⟩] [], []) :=
  ⟨rfl, rfl⟩

/-- C10 counterexample: a response whose `Content-Type` header is the
empty string but whose status is 301 takes the redirect path: the body is
not parsed or rewritten and the returned Resource is a redirect record,
so the claim's "for every HTTP response whose Content-Type header is the
empty string" needs a non-redirect-status qualification. -/
theorem processURL_emptyContentType_counterexample :
    processURL ⟨"example.com", []⟩ (fun _ => none)
        (fun _ => some ⟨"", "", "/t", "", ""⟩)
        (fun _ => some (.mk .text .other "x" [] []))
        (fun _ => "rendered") ⟨"https", "example.com", "/p", "", ""⟩
        (some ⟨301, "/t", "", "body"⟩)
      = .ok ({ content := "", contentType := "", redirect := "/t" },
             [⟨"", "", "/t", "", ""⟩]) :=
  rfl

/-- C10 (amended): for a non-redirect-status response whose
`Content-Type` header is the empty string, `processURL` classifies it as
HTML — the body is parsed to a document tree, run through `staticateDoc`,
and the re-serialized tree is stored as the Resource's content instead of
the raw bytes; and `isHTMLContentType` accepts exactly the empty string
and the content types whose portion before the first `;` equals
`"text/html"`. -/
theorem processURL_emptyContentType (c : CrawlerCfg)
    (pu parseReq : String → Option URL)
    (parseHTML : String → Option HtmlNode) (render : HtmlNode → String)
    (u : URL) (resp : Response) (doc : HtmlNode)
    (hs : isRedirectStatus resp.statusCode = false)
    (he : resp.contentType = "")
    (hp : parseHTML resp.body = some doc) :
    processURL c pu parseReq parseHTML render u (some resp)
      = .ok ({ content := render (staticateDoc c pu u.hostname doc).1,
               contentType := "", redirect := "" },
             (staticateDoc c pu u.hostname doc).2) ∧
    ∀ s : String, isHTMLContentType s = true ↔
      (s = "" ∨ String.mk (s.data.takeWhile fun ch => !(ch = ';'))
        = "text/html") := by
  constructor
  · simp [processURL, hs, he, hp, isHTMLContentType]
  · intro s
    simp [isHTMLContentType, splitOnChar_head]

/-- C10 witness: a 200 response with an empty content-type header is
parsed and rewritten rather than stored raw. -/
theorem processURL_emptyContentType_witness :
    processURL ⟨"example.com", []⟩ (fun _ => none) (fun _ => none)
        (fun _ => some (.mk .text .other "x" [] []))
        (fun _ => "rendered") ⟨"https", "example.com", "/p", "", ""⟩
        (some ⟨200, "", "", "body"⟩)
      = .ok ({ content := "rendered", contentType := "", redirect := "" },
             []) ∧
    (isHTMLContentType "text/html; charset=utf-8" = true ↔
      (("text/html; charset=utf-8" : String) = "" ∨
        String.mk (("text/html; charset=utf-8" : String).data.takeWhile
          fun ch => !(ch = ';')) = "text/html")) :=
  ⟨(processURL_emptyContentType ⟨"example.com", []⟩ (fun _ => none)
      (fun _ => none) (fun _ => some (.mk .text .other "x" [] []))
      (fun _ => "rendered") ⟨"https", "example.com", "/p", "", ""⟩
      ⟨200, "", "", "body"⟩ (.mk .text .other "x" [] [])
      (by decide) (by decide) rfl).1,
   (processURL_emptyContentType ⟨"example.com", []⟩ (fun _ => none)
      (fun _ => none) (fun _ => some (.mk .text .other "x" [] []))
      (fun _ => "rendered") ⟨"https", "example.com", "/p", "", ""⟩
      ⟨200, "", "", "body"⟩ (.mk .text .other "x" [] [])
      (by decide) (by decide) rfl).2 "text/html; charset=utf-8"⟩
